import Mathlib

/-!
Shallow embedding of the bookstore backend's soft-delete lifecycle,
referential guard and transaction aggregator
(src/src/controllers/libraryController.ts, genre handlers routed through
genreController, and the two createTransaction variants).

Conventions of the embedding:
* JavaScript numbers arriving in request bodies after the `Number()`
  coercion are modelled by `JsNum` (either NaN or a rational).
* Timestamps (`new Date()`) are modelled by a `now : Nat` parameter.
* Prisma row ids generated by the store are passed in as parameters.
* `prisma.<table>.findFirst` / `findUnique` are modelled by `List.find?`
  over the table list, whose order models the store's row order.
* A handler returns a `Resp`: the HTTP status it answered with, the
  `data` payload (when any) and the store after the request.
-/

/-- A JavaScript number: NaN or an ordinary (rational) value. -/
inductive JsNum where
  | nan : JsNum
  | num : ℚ → JsNum
deriving DecidableEq, Repr

/-- `Number.isNaN`. -/
def JsNum.isNaN : JsNum → Bool
  | nan => true
  | num _ => false

/-- The rational value of a non-NaN JavaScript number (0 for NaN; only
used under a NaN guard). -/
def JsNum.toQ : JsNum → ℚ
  | nan => 0
  | num q => q

/-- `Number.isInteger` on a non-NaN value. -/
def jsIsInteger (q : ℚ) : Bool := q.den == 1

/-- Truthiness of an optional string field (`!field` in the handlers):
absent and the empty string are falsy. -/
def strTruthy : Option String → Bool
  | some s => !(s == "")
  | none => false

/-- A row of the `genres` table. -/
structure Genre where
  id : String
  name : String
  created_at : Nat
  updated_at : Nat
  deleted_at : Option Nat
deriving DecidableEq, Repr

/-- A row of the `books` table. -/
structure Book where
  id : String
  title : String
  writer : String
  publisher : String
  description : Option String
  publication_year : ℚ
  price : ℚ
  stock_quantity : ℚ
  genre_id : String
  created_at : Nat
  updated_at : Nat
  deleted_at : Option Nat
deriving DecidableEq, Repr

/-- A row of the `users` table (only the id is relevant here). -/
structure User where
  id : String
deriving DecidableEq, Repr

/-- A row of the `orders` table. -/
structure Order where
  id : String
  user_id : String
  created_at : Nat
  updated_at : Nat
deriving DecidableEq, Repr

/-- A row of the `order_items` table. -/
structure OrderItem where
  id : String
  order_id : String
  book_id : String
  quantity : ℚ
  created_at : Nat
  updated_at : Nat
deriving DecidableEq, Repr

/-- The relational store. -/
structure Store where
  genres : List Genre
  books : List Book
  users : List User
  orders : List Order
  order_items : List OrderItem
deriving DecidableEq, Repr

/-- Outcome of one request: status code, response data, resulting store. -/
structure Resp (α : Type) where
  status : Nat
  data : Option α
  store : Store
deriving Repr

namespace GenreController

/-- `createGenre` (genre controller): restore-on-create for a
soft-deleted genre with the same (unique) name, 400 on an active
duplicate, otherwise a fresh row. -/
def createGenre (name : Option String) (now : Nat) (newId : String)
    (st : Store) : Resp Genre :=
  match name with
  | none => ⟨400, none, st⟩
  | some n =>
    if n == "" then ⟨400, none, st⟩
    else
      match st.genres.find? (fun g => g.name == n) with
      | some g =>
        if g.deleted_at == none then ⟨400, none, st⟩
        else
          ⟨200, some { g with deleted_at := none, updated_at := now },
            { st with genres := st.genres.map (fun x =>
                if x.id == g.id then { x with deleted_at := none, updated_at := now }
                else x) }⟩
      | none =>
        let ng : Genre :=
          { id := newId, name := n, created_at := now, updated_at := now,
            deleted_at := none }
        ⟨201, some ng, { st with genres := st.genres ++ [ng] }⟩

/-- `updateGenre`: the row is looked up by id with `findUnique`, with no
`deleted_at` filter; `name || genre.name` keeps the old name when the
request's name is absent or empty. -/
def updateGenre (gid : String) (name : Option String) (now : Nat)
    (st : Store) : Resp Genre :=
  match st.genres.find? (fun g => g.id == gid) with
  | none => ⟨404, none, st⟩
  | some g =>
    let newName := match name with
      | some s => if s == "" then g.name else s
      | none => g.name
    ⟨200, some { g with name := newName, updated_at := now },
      { st with genres := st.genres.map (fun x =>
          if x.id == gid then { x with name := newName, updated_at := now }
          else x) }⟩

/-- `deleteGenre`: looked up by id with no `deleted_at` filter; blocked
(400) when any book row (in any state) references the genre; otherwise
soft-deletes. -/
def deleteGenre (gid : String) (now : Nat) (st : Store) : Resp Genre :=
  match st.genres.find? (fun g => g.id == gid) with
  | none => ⟨404, none, st⟩
  | some g =>
    if (st.books.filter (fun b => b.genre_id == gid)).length > 0 then
      ⟨400, none, st⟩
    else
      ⟨200, some { g with deleted_at := some now, updated_at := now },
        { st with genres := st.genres.map (fun x =>
            if x.id == gid then { x with deleted_at := some now, updated_at := now }
            else x) }⟩

end GenreController

/-- `description || null` in `createBook`: a missing, null or empty
description is stored as null. -/
def descOrNull : Option (Option String) → Option String
  | some (some s) => if s == "" then none else some s
  | _ => none

/-- Body of a `POST /books` request, after the handler's `Number()`
coercions. `none` on a field models `undefined`. -/
structure BookCreateReq where
  title : Option String
  writer : Option String
  publisher : Option String
  description : Option (Option String)
  publication_year : Option JsNum
  price : Option JsNum
  stock_quantity : Option JsNum
  genre_id : Option String
deriving DecidableEq, Repr

/-- Body of a `PATCH /books/:book_id` request. -/
structure BookUpdateReq where
  title : Option String
  writer : Option String
  publisher : Option String
  description : Option (Option String)
  publication_year : Option JsNum
  price : Option JsNum
  stock_quantity : Option JsNum
  genre_id : Option String
deriving DecidableEq, Repr

/-- Is the field present and NaN after `Number()` coercion? -/
def optNaN : Option JsNum → Bool
  | some JsNum.nan => true
  | _ => false

/-- Is the field a present negative number? -/
def optNegNum : Option JsNum → Bool
  | some (JsNum.num q) => decide (q < 0)
  | _ => false

/-- Is the field a present number that is negative or not an integer
(the `stock_quantity` rejection test)? -/
def optBadStock : Option JsNum → Bool
  | some (JsNum.num q) => decide (q < 0) || !(jsIsInteger q)
  | _ => false

namespace LibraryController

/-- The fields written by the restore branch of `createBook`
(`prisma.books.update` data): clears `deleted_at`, overwrites every
mutable field except the (matching) title, refreshes `updated_at`. -/
def restoreFields (b : Book) (w pub : String) (d : Option String)
    (py bp sq : ℚ) (gid : String) (now : Nat) : Book :=
  { b with
    deleted_at := none
    writer := w
    publisher := pub
    description := d
    publication_year := py
    price := bp
    stock_quantity := sq
    genre_id := gid
    updated_at := now }

/-- `createBook`: required-field and number validation, genre reference
check, duplicate-title conflict among active rows, restore of a
soft-deleted row with the same title, else a fresh row. -/
def createBook (req : BookCreateReq) (thisYear : ℚ) (now : Nat)
    (newId : String) (st : Store) : Resp Book :=
  match req.title, req.writer, req.publisher, req.publication_year,
        req.price, req.stock_quantity, req.genre_id with
  | some t, some w, some pub, some py0, some pr0, some sq0, some gid =>
    if t == "" || w == "" || pub == "" || gid == "" then ⟨400, none, st⟩
    else
      match py0, pr0, sq0 with
      | JsNum.num py, JsNum.num bp, JsNum.num sq =>
        if bp < 0 then ⟨400, none, st⟩
        else if sq < 0 ∨ ¬jsIsInteger sq then ⟨400, none, st⟩
        else if py < 0 ∨ py > thisYear + 1 then ⟨400, none, st⟩
        else
          match st.genres.find? (fun g => g.id == gid) with
          | none => ⟨404, none, st⟩
          | some _ =>
            match st.books.find? (fun b => b.title == t && b.deleted_at == none) with
            | some _ => ⟨409, none, st⟩
            | none =>
              match st.books.find? (fun b => b.title == t && !(b.deleted_at == none)) with
              | some d =>
                ⟨200, some (restoreFields d w pub (descOrNull req.description) py bp sq gid now),
                  { st with books := st.books.map (fun b =>
                      if b.id == d.id then
                        restoreFields b w pub (descOrNull req.description) py bp sq gid now
                      else b) }⟩
              | none =>
                let nb : Book :=
                  { id := newId, title := t, writer := w, publisher := pub,
                    description := descOrNull req.description,
                    publication_year := py, price := bp, stock_quantity := sq,
                    genre_id := gid, created_at := now, updated_at := now,
                    deleted_at := none }
                ⟨201, some nb, { st with books := st.books ++ [nb] }⟩
      | _, _, _ => ⟨400, none, st⟩
  | _, _, _, _, _, _, _ => ⟨400, none, st⟩

/-- The `data` object `updateBook` sends to `prisma.books.update`:
only fields present in the request are assigned, plus `updated_at`. -/
def applyBookUpdate (b : Book) (req : BookUpdateReq) (now : Nat) : Book :=
  { b with
    updated_at := now
    title := req.title.getD b.title
    writer := req.writer.getD b.writer
    publisher := req.publisher.getD b.publisher
    description := match req.description with
      | some v => v
      | none => b.description
    publication_year := match req.publication_year with
      | some (JsNum.num q) => q
      | _ => b.publication_year
    price := match req.price with
      | some (JsNum.num q) => q
      | _ => b.price
    stock_quantity := match req.stock_quantity with
      | some (JsNum.num q) => q
      | _ => b.stock_quantity
    genre_id := req.genre_id.getD b.genre_id }

/-- `updateBook`: 404 unless an active row with the id exists, then
per-field validation in source order, then one `prisma.books.update`. -/
def updateBook (bid : String) (req : BookUpdateReq) (now : Nat)
    (st : Store) : Resp Book :=
  match st.books.find? (fun b => b.id == bid && b.deleted_at == none) with
  | none => ⟨404, none, st⟩
  | some b0 =>
    if optNaN req.publication_year then ⟨400, none, st⟩
    else if optNaN req.price then ⟨400, none, st⟩
    else if optNegNum req.price then ⟨400, none, st⟩
    else if optNaN req.stock_quantity then ⟨400, none, st⟩
    else if optBadStock req.stock_quantity then ⟨400, none, st⟩
    else if req.genre_id.isSome &&
        (st.genres.find? (fun g => g.id == req.genre_id.getD "")).isNone then
      ⟨400, none, st⟩
    else
      ⟨200, some (applyBookUpdate b0 req now),
        { st with books := st.books.map (fun b =>
            if b.id == bid then applyBookUpdate b req now else b) }⟩

/-- `deleteBook`: 404 unless an active row exists; blocked (400) when
any order item references the book; otherwise soft-deletes. -/
def deleteBook (bid : String) (now : Nat) (st : Store) : Resp Book :=
  match st.books.find? (fun b => b.id == bid && b.deleted_at == none) with
  | none => ⟨404, none, st⟩
  | some b0 =>
    if (st.order_items.filter (fun oi => oi.book_id == bid)).length > 0 then
      ⟨400, none, st⟩
    else
      ⟨200, some { b0 with deleted_at := some now, updated_at := now },
        { st with books := st.books.map (fun b =>
            if b.id == bid then { b with deleted_at := some now, updated_at := now }
            else b) }⟩

end LibraryController

/-- One entry of the `items` array of a `POST /transactions` body.
`book_id` is `none` when absent; `quantity` is `none` when absent or not
of JavaScript number type (NaN *is* a number and passes the type test). -/
structure ItemReq where
  book_id : Option String
  quantity : Option JsNum
deriving DecidableEq, Repr

/-- The per-item shape check of both `createTransaction` variants:
`!item.book_id || typeof item.quantity !== "number"`. -/
def itemInvalid (it : ItemReq) : Bool :=
  !(strTruthy it.book_id) || it.quantity.isNone

namespace LibraryController

/-- `createTransaction` (uuid variant): body validation, then the user
reference check, then every item's book reference check, and only then
the order and item writes. `itemId i` stands for the store-generated id
of the i-th order item. -/
def createTransaction (user_id : Option String) (items : Option (List ItemReq))
    (now : Nat) (orderId : String) (itemId : Nat → String)
    (st : Store) : Resp (Order × List OrderItem) :=
  match user_id, items with
  | some uid, some its =>
    if uid == "" || its.isEmpty then ⟨400, none, st⟩
    else if its.any itemInvalid then ⟨400, none, st⟩
    else if (st.users.find? (fun u => u.id == uid)).isNone then ⟨404, none, st⟩
    else if its.any (fun it =>
        (st.books.find? (fun b => b.id == it.book_id.getD "")).isNone) then
      ⟨404, none, st⟩
    else
      let order : Order :=
        { id := orderId, user_id := uid, created_at := now, updated_at := now }
      let ois := its.enum.map (fun p =>
        ({ id := itemId p.1, order_id := orderId,
           book_id := p.2.book_id.getD "", quantity := (p.2.quantity.getD JsNum.nan).toQ,
           created_at := now, updated_at := now } : OrderItem))
      ⟨201, some (order, ois),
        { st with
          orders := st.orders ++ [order]
          order_items := st.order_items ++ ois }⟩
  | _, _ => ⟨400, none, st⟩

end LibraryController

namespace TransactionController

/-- The item-writing loop of the bcrypt `createTransaction` variant: each
`prisma.order_items.create` either persists the row or hits the store's
foreign-key constraint on a dangling `book_id`, which the catch block
turns into a 500. The `Promise.all` issue order is modelled sequentially;
rows written before the failing one stay in the store. -/
def insertItems (its : List ItemReq) (orderId : String) (itemId : Nat → String)
    (now : Nat) (idx : Nat) (st : Store) : Nat × Store :=
  match its with
  | [] => (201, st)
  | it :: rest =>
    match st.books.find? (fun b => b.id == it.book_id.getD "") with
    | none => (500, st)
    | some _ =>
      let oi : OrderItem :=
        { id := itemId idx, order_id := orderId,
          book_id := it.book_id.getD "", quantity := (it.quantity.getD JsNum.nan).toQ,
          created_at := now, updated_at := now }
      insertItems rest orderId itemId now (idx + 1)
        { st with order_items := st.order_items ++ [oi] }

/-- `createTransaction` (bcrypt variant): body validation only — no user
or book reference checks. A missing user surfaces as the store's
foreign-key rejection of the order write (caught, 500, nothing written);
a missing book surfaces after the order row has already been written. -/
def createTransaction (user_id : Option String) (items : Option (List ItemReq))
    (now : Nat) (orderId : String) (itemId : Nat → String)
    (st : Store) : Resp (Order × List OrderItem) :=
  match user_id, items with
  | some uid, some its =>
    if uid == "" || its.isEmpty then ⟨400, none, st⟩
    else if its.any itemInvalid then ⟨400, none, st⟩
    else if (st.users.find? (fun u => u.id == uid)).isNone then ⟨500, none, st⟩
    else
      let order : Order :=
        { id := orderId, user_id := uid, created_at := now, updated_at := now }
      let r := insertItems its orderId itemId now 0
        { st with orders := st.orders ++ [order] }
      ⟨r.1, none, r.2⟩
  | _, _ => ⟨400, none, st⟩

end TransactionController

/-- The shape of a book row as included by the transaction queries
(`select`/`include` on the `book` relation); `genre` is the included
genre's name reached by `item.book.genre?.name`. -/
structure FetchedBook where
  title : String
  price : ℚ
  genre : Option String
deriving DecidableEq, Repr

/-- An order item as included by the transaction queries. -/
structure FetchedItem where
  quantity : ℚ
  book : FetchedBook
deriving DecidableEq, Repr

/-- An order as fetched by the transaction queries, with its items. -/
structure FetchedOrder where
  id : String
  order_items : List FetchedItem
deriving DecidableEq, Repr

namespace LibraryController

/-- `totalAmount` of one order in `getAllTransactions`:
`t.order_items.reduce((sum, item) => sum + item.quantity * item.book.price, 0)`. -/
def totalAmount (t : FetchedOrder) : ℚ :=
  t.order_items.foldl (fun sum item => sum + item.quantity * item.book.price) 0

/-- `avgPrice` of one order in `getAllTransactions`: the mean of the
items' unit prices, taken to be 0 when the order has no items. -/
def avgPrice (t : FetchedOrder) : ℚ :=
  if t.order_items.length > 0 then
    t.order_items.foldl (fun sum item => sum + item.book.price) 0 /
      (t.order_items.length : ℚ)
  else 0

/-- One element of the `transactionsWithTotals` array. -/
structure OrderWithTotals where
  t : FetchedOrder
  totalAmount : ℚ
  avgPrice : ℚ
deriving DecidableEq, Repr

/-- The `transactions.map` step of `getAllTransactions` that decorates
each fetched order with `totalAmount` and `avgPrice`. -/
def transactionsWithTotals (ts : List FetchedOrder) : List OrderWithTotals :=
  ts.map (fun t => ⟨t, totalAmount t, avgPrice t⟩)

/-- JavaScript `new Set(list)` as an insertion-ordered list of the first
occurrences. -/
def setDedup (l : List (Option String)) : List (Option String) :=
  l.foldl (fun acc x => if x ∈ acc then acc else acc ++ [x]) []

/-- The set of distinct genre names (possibly missing ones included)
touched by one order: `new Set(t.order_items.map(item => item.book.genre?.name))`. -/
def touchedGenres (t : FetchedOrder) : List (Option String) :=
  setDedup (t.order_items.map (fun i => i.book.genre))

/-- `genreStats[genre] = (genreStats[genre] || 0) + 1` on an
insertion-ordered record with one entry per key. -/
def bump : List (String × Nat) → String → List (String × Nat)
  | [], g => [(g, 1)]
  | p :: ps, g =>
    if p.1 = g then (p.1, p.2 + 1) :: ps else p :: bump ps g

/-- Reading a key of the frequency record (0 when absent). -/
def freq : List (String × Nat) → String → Nat
  | [], _ => 0
  | p :: ps, g => if p.1 = g then p.2 else freq ps g

/-- One `uniqueGenres.forEach` step: a non-falsy genre name bumps its
counter, `undefined` and `""` are skipped (`if (!genre) return`). -/
def statStep (a : List (String × Nat)) (og : Option String) :
    List (String × Nat) :=
  match og with
  | some g => if g == "" then a else bump a g
  | none => a

/-- The contribution of one order to the frequency record: each
non-falsy genre name in the order's distinct-genre set bumps its
counter once. -/
def addOrderGenres (acc : List (String × Nat)) (t : FetchedOrder) :
    List (String × Nat) :=
  (touchedGenres t).foldl statStep acc

/-- The `genreStats` record of `getTransactionStats`, built over all
orders in fetch order. -/
def genreStats (ts : List FetchedOrder) : List (String × Nat) :=
  ts.foldl addOrderGenres []

/-- One step of the stable descending sort
`Object.entries(genreStats).sort((a, b) => b[1] - a[1])`
(`Array.prototype.sort` is stable, ES2019): an entry is inserted after
every already-placed entry of count ≥ its own. -/
def insertDesc (e : String × Nat) : List (String × Nat) → List (String × Nat)
  | [] => [e]
  | x :: xs => if e.2 ≥ x.2 then e :: x :: xs else x :: insertDesc e xs

/-- The stable descending-by-count sort of the frequency entries. -/
def sortStats : List (String × Nat) → List (String × Nat)
  | [] => []
  | x :: xs => insertDesc x (sortStats xs)

/-- The response data of `getTransactionStats`. -/
structure StatsData where
  totalTransactions : Nat
  avgTransactionValue : ℚ
  topGenre : Option (String × Nat)
  leastGenre : Option (String × Nat)
deriving DecidableEq, Repr

/-- `getTransactionStats`: early return for an empty store, else the
count of orders, mean of per-order totals, and the first and last entry
of the stably sorted frequency record. -/
def getTransactionStats (ts : List FetchedOrder) : StatsData :=
  if ts.isEmpty then ⟨0, 0, none, none⟩
  else
    let totals := ts.map totalAmount
    let sorted := sortStats (genreStats ts)
    ⟨ts.length, totals.foldl (fun a b => a + b) 0 / (ts.length : ℚ),
      sorted.head?, sorted.getLast?⟩

end LibraryController

/-- The first entry (in insertion order) whose count is maximal — the
tie-break the spec ascribes to `top_genre`. -/
def firstMaxEntry : List (String × Nat) → Option (String × Nat)
  | [] => none
  | p :: ps =>
    match firstMaxEntry ps with
    | none => some p
    | some q => if p.2 ≥ q.2 then some p else some q

/-- The last entry (in insertion order) whose count is minimal — the
tie-break the code actually gives `least_genre`. -/
def lastMinEntry : List (String × Nat) → Option (String × Nat)
  | [] => none
  | p :: ps =>
    match lastMinEntry ps with
    | none => some p
    | some q => if q.2 ≤ p.2 then some q else some p

/-- The stored-book invariant of C9: price and stock are nonnegative and
the stock is integral. -/
def BookOk (b : Book) : Prop :=
  0 ≤ b.price ∧ 0 ≤ b.stock_quantity ∧ b.stock_quantity.den = 1

/-! ### Concrete fixtures used by the witnesses and counterexamples -/

/-- A soft-deleted genre row. -/
def gFiction : Genre :=
  { id := "g1", name := "Fiction", created_at := 1, updated_at := 2,
    deleted_at := some 5 }

/-- An active genre row. -/
def gSci : Genre :=
  { id := "g2", name := "Sci", created_at := 1, updated_at := 1,
    deleted_at := none }

/-- A soft-deleted book row referencing `gSci`. -/
def bDune : Book :=
  { id := "b1", title := "Dune", writer := "FH", publisher := "Ace",
    description := none, publication_year := 1965, price := 10,
    stock_quantity := 3, genre_id := "g2", created_at := 1, updated_at := 2,
    deleted_at := some 5 }

/-- Store for the C1 witness: one deleted genre, one active genre, one
deleted book. -/
def stC1 : Store :=
  { genres := [gFiction, gSci], books := [bDune], users := [], orders := [],
    order_items := [] }

/-- An active book row referencing `gSci`, used by the delete-guard
witness. -/
def bAct : Book :=
  { id := "b3", title := "Hobbit", writer := "JRRT", publisher := "AU",
    description := none, publication_year := 1937, price := 7,
    stock_quantity := 2, genre_id := "g2", created_at := 1, updated_at := 1,
    deleted_at := none }

/-- An order item referencing `bAct`. -/
def oi1 : OrderItem :=
  { id := "oi1", order_id := "o1", book_id := "b3", quantity := 1,
    created_at := 1, updated_at := 1 }

/-- Store for the C3 witness: an active genre and book, and one order
item referencing the book. -/
def stC3 : Store :=
  { genres := [gSci], books := [bAct], users := [], orders := [],
    order_items := [oi1] }

/-- A user row. -/
def u1 : User := { id := "u1" }

/-- Store for the C4 runs: one user, no books. -/
def stC4 : Store :=
  { genres := [], books := [], users := [u1], orders := [], order_items := [] }

/-- A fetched order with two items (unit prices 10 and 20, quantities 2
and 1) for the aggregation witnesses. -/
def tOrd : FetchedOrder :=
  { id := "o1", order_items :=
      [{ quantity := 2, book := { title := "Dune", price := 10, genre := some "Sci" } },
       { quantity := 1, book := { title := "Hobbit", price := 20, genre := some "Fan" } }] }

/-- An order touching only genre "A". -/
def oA : FetchedOrder :=
  { id := "oA", order_items :=
      [{ quantity := 1, book := { title := "tA", price := 5, genre := some "A" } }] }

/-- An order touching only genre "B". -/
def oB : FetchedOrder :=
  { id := "oB", order_items :=
      [{ quantity := 1, book := { title := "tB", price := 5, genre := some "B" } }] }

/-- A create request carrying a negative stock quantity. -/
def reqBadStock : BookCreateReq :=
  { title := some "X", writer := some "w", publisher := some "p",
    description := none, publication_year := some (JsNum.num 2000),
    price := some (JsNum.num 5), stock_quantity := some (JsNum.num (-1)),
    genre_id := some "g2" }

/-- An update request carrying a negative stock quantity. -/
def requBadStock : BookUpdateReq :=
  { title := none, writer := none, publisher := none, description := none,
    publication_year := none, price := none,
    stock_quantity := some (JsNum.num (-1)), genre_id := none }

/-- A create request whose numeric publication year is out of the
create-time range. -/
def reqBadYear : BookCreateReq :=
  { title := some "X", writer := some "w", publisher := some "p",
    description := none, publication_year := some (JsNum.num (-100)),
    price := some (JsNum.num 5), stock_quantity := some (JsNum.num 1),
    genre_id := some "g2" }

/-! ### Helper lemmas -/

/-- `find?` returns the element when it is the unique satisfier. -/
theorem find?_of_unique {α : Type} {p : α → Bool} {l : List α} {a : α}
    (ha : a ∈ l) (hpa : p a = true) (huni : ∀ x ∈ l, p x = true → x = a) :
    l.find? p = some a := by
  induction l with
  | nil => cases ha
  | cons x xs ih =>
    by_cases hx : p x = true
    · have hxa := huni x (List.mem_cons_self x xs) hx
      subst hxa
      simp [List.find?_cons_of_pos _ hx]
    · rw [List.find?_cons_of_neg _ (by simpa using hx)]
      have hax : a ∈ xs := by
        rcases List.mem_cons.mp ha with h | h
        · exact absurd (h ▸ hpa) hx
        · exact h
      exact ih hax (fun y hy hpy => huni y (List.mem_cons_of_mem _ hy) hpy)

/-- C1: a create request whose unique key (genre name / book title)
matches a soft-deleted row restores that row in place: the response id
is the deleted row's id (no new row is created), `deleted_at` is
cleared, `updated_at` is refreshed, and the status is 200. -/
theorem C1_create_restores_soft_deleted_row
    (st : Store) (now : Nat) (newId newIdB : String)
    (n : String) (hn : n ≠ "")
    (g : Genre) (hg : g ∈ st.genres) (hgname : g.name = n)
    (d : Nat) (hgdel : g.deleted_at = some d)
    (guniq : ∀ x ∈ st.genres, x.name = n → x = g)
    (t w pub gidB : String) (ht : t ≠ "") (hw : w ≠ "") (hpub : pub ≠ "")
    (hgid : gidB ≠ "") (desc : Option (Option String))
    (py bp sq thisYear : ℚ)
    (hbp : 0 ≤ bp) (hsq : 0 ≤ sq) (hsqint : sq.den = 1)
    (hpy0 : 0 ≤ py) (hpy1 : py ≤ thisYear + 1)
    (gg : Genre) (hgg : gg ∈ st.genres) (hggid : gg.id = gidB)
    (b : Book) (hb : b ∈ st.books) (hbtitle : b.title = t)
    (db : Nat) (hbdel : b.deleted_at = some db)
    (buniq : ∀ x ∈ st.books, x.title = t → x = b) :
    (GenreController.createGenre (some n) now newId st).status = 200 ∧
    (GenreController.createGenre (some n) now newId st).data =
      some { g with deleted_at := none, updated_at := now } ∧
    (GenreController.createGenre (some n) now newId st).store.genres.length =
      st.genres.length ∧
    (LibraryController.createBook
        ⟨some t, some w, some pub, desc, some (JsNum.num py),
         some (JsNum.num bp), some (JsNum.num sq), some gidB⟩
        thisYear now newIdB st).status = 200 ∧
    (LibraryController.createBook
        ⟨some t, some w, some pub, desc, some (JsNum.num py),
         some (JsNum.num bp), some (JsNum.num sq), some gidB⟩
        thisYear now newIdB st).data =
      some (LibraryController.restoreFields b w pub (descOrNull desc)
        py bp sq gidB now) ∧
    (LibraryController.restoreFields b w pub (descOrNull desc)
        py bp sq gidB now).id = b.id ∧
    (LibraryController.restoreFields b w pub (descOrNull desc)
        py bp sq gidB now).deleted_at = none ∧
    (LibraryController.restoreFields b w pub (descOrNull desc)
        py bp sq gidB now).updated_at = now ∧
    (LibraryController.createBook
        ⟨some t, some w, some pub, desc, some (JsNum.num py),
         some (JsNum.num bp), some (JsNum.num sq), some gidB⟩
        thisYear now newIdB st).store.books.length = st.books.length := by
  have hgfind : st.genres.find? (fun x => x.name == n) = some g :=
    find?_of_unique hg (by simpa using hgname)
      (fun x hx hpx => guniq x hx (by simpa using hpx))
  have hgenre : (GenreController.createGenre (some n) now newId st) =
      ⟨200, some { g with deleted_at := none, updated_at := now },
        { st with genres := st.genres.map (fun x =>
            if x.id == g.id then { x with deleted_at := none, updated_at := now }
            else x) }⟩ := by
    simp [GenreController.createGenre, hgfind, hn, hgdel]
  -- the three book-table lookups of createBook
  have hgenre_find :
      ∃ y, st.genres.find? (fun x => x.id == gidB) = some y := by
    rcases hfind : st.genres.find? (fun x => x.id == gidB) with _ | y
    · exact absurd (by simpa using List.find?_eq_none.mp hfind gg hgg) (by simp [hggid])
    · exact ⟨y, hfind⟩
  have hactive : st.books.find?
      (fun x => x.title == t && x.deleted_at == none) = none := by
    apply List.find?_eq_none.mpr
    intro x hx
    simp only [Bool.and_eq_true, beq_iff_eq, not_and]
    intro hxt
    have := buniq x hx hxt
    subst this
    simp [hbdel]
  have hdeleted : st.books.find?
      (fun x => x.title == t && !(x.deleted_at == none)) = some b :=
    find?_of_unique hb (by simp [hbtitle, hbdel])
      (fun x hx hpx => buniq x hx (by simpa using (Bool.and_eq_true _ _ |>.mp hpx).1))
  obtain ⟨y, hy⟩ := hgenre_find
  have hbook : (LibraryController.createBook
      ⟨some t, some w, some pub, desc, some (JsNum.num py),
       some (JsNum.num bp), some (JsNum.num sq), some gidB⟩
      thisYear now newIdB st) =
      ⟨200, some (LibraryController.restoreFields b w pub (descOrNull desc)
          py bp sq gidB now),
        { st with books := st.books.map (fun x =>
            if x.id == b.id then
              LibraryController.restoreFields x w pub (descOrNull desc)
                py bp sq gidB now
            else x) }⟩ := by
    simp [LibraryController.createBook, ht, hw, hpub, hgid,
      not_lt.mpr hbp, not_lt.mpr hsq, jsIsInteger, hsqint,
      not_lt.mpr hpy0, not_lt.mpr hpy1, hy, hactive, hdeleted]
  refine ⟨?_, ?_, ?_, ?_, ?_, ?_, ?_, ?_, ?_⟩
  · rw [hgenre]
  · rw [hgenre]
  · rw [hgenre]; exact List.length_map _ _
  · rw [hbook]
  · rw [hbook]
  · rfl
  · rfl
  · rfl
  · rw [hbook]; exact List.length_map _ _

/-- Witness for C1 at a concrete store: both restores answer 200. -/
theorem C1_create_restores_soft_deleted_row_witness :
    (GenreController.createGenre (some "Fiction") 10 "gNew" stC1).status = 200 ∧
    (LibraryController.createBook
      ⟨some "Dune", some "FH", some "Ace", none, some (JsNum.num 1965),
       some (JsNum.num 10), some (JsNum.num 3), some "g2"⟩
      2025 10 "bNew" stC1).status = 200 :=
  have h := C1_create_restores_soft_deleted_row stC1 10 "gNew" "bNew"
    "Fiction" (by decide) gFiction (by simp [stC1]) rfl 5 rfl
    (by intro x hx hnm
        simp only [stC1, List.mem_cons, List.not_mem_nil, or_false] at hx
        rcases hx with rfl | rfl
        · rfl
        · exact absurd hnm (by decide))
    "Dune" "FH" "Ace" "g2" (by decide) (by decide) (by decide) (by decide)
    none 1965 10 3 2025 (by norm_num) (by norm_num) rfl (by norm_num)
    (by norm_num) gSci (by simp [stC1]) rfl bDune (by simp [stC1]) rfl 5 rfl
    (by intro x hx hnm
        simp only [stC1, List.mem_cons, List.not_mem_nil, or_false] at hx
        subst hx
        rfl)
  ⟨h.1, h.2.2.2.1⟩

/-- C2 counterexample: on a store whose genre "g1" is soft-deleted,
`updateGenre` answers 200 (not 404) and mutates the row, and
`deleteGenre` answers 200 (not 404) — deleted genre rows are not inert,
contrary to the claim. -/
theorem C2_deleted_genre_inert_counterexample :
    gFiction.deleted_at = some 5 ∧
    (GenreController.updateGenre "g1" (some "SciFi") 10 stC1).status = 200 ∧
    ¬(GenreController.updateGenre "g1" (some "SciFi") 10 stC1).status = 404 ∧
    ¬(GenreController.updateGenre "g1" (some "SciFi") 10 stC1).store = stC1 ∧
    (GenreController.deleteGenre "g1" 10 stC1).status = 200 := by
  refine ⟨rfl, ?_, ?_, ?_, ?_⟩
  · simp [GenreController.updateGenre, stC1, gFiction, gSci]
  · simp [GenreController.updateGenre, stC1, gFiction, gSci]
  · intro h
    have h2 := congrArg Store.genres h
    simp [GenreController.updateGenre, stC1, gFiction, gSci,
      Genre.mk.injEq] at h2
  · simp [GenreController.deleteGenre, stC1, gFiction, gSci, bDune]

/-- C2 amended: soft-deleted Book rows are inert — update and delete on
their id answer 404 and leave the store unchanged — but soft-deleted
Genre rows are not: the genre lookups ignore `deleted_at`, so update on
a deleted genre answers 200 and rewrites the row, and delete never
answers 404 for it. -/
theorem C2_deleted_book_inert_deleted_genre_not
    (st : Store) (now : Nat) (bid : String) (req : BookUpdateReq)
    (hallb : ∀ x ∈ st.books, x.id = bid → x.deleted_at ≠ none)
    (gid : String) (g : Genre) (hg : g ∈ st.genres) (hgid : g.id = gid)
    (dg : Nat) (hgdel : g.deleted_at = some dg)
    (guniq : ∀ x ∈ st.genres, x.id = gid → x = g)
    (nm : String) (hnm : nm ≠ "") :
    (LibraryController.updateBook bid req now st).status = 404 ∧
    (LibraryController.updateBook bid req now st).store = st ∧
    (LibraryController.deleteBook bid now st).status = 404 ∧
    (LibraryController.deleteBook bid now st).store = st ∧
    (GenreController.updateGenre gid (some nm) now st).status = 200 ∧
    (GenreController.updateGenre gid (some nm) now st).data =
      some { g with name := nm, updated_at := now } ∧
    ¬(GenreController.deleteGenre gid now st).status = 404 := by
  have hbfind : st.books.find?
      (fun x => x.id == bid && x.deleted_at == none) = none := by
    apply List.find?_eq_none.mpr
    intro x hx
    simp only [Bool.and_eq_true, beq_iff_eq, not_and]
    intro hxid
    exact fun hdel => hallb x hx hxid hdel
  have hgfind : st.genres.find? (fun x => x.id == gid) = some g :=
    find?_of_unique hg (by simpa using hgid)
      (fun x hx hpx => guniq x hx (by simpa using hpx))
  refine ⟨?_, ?_, ?_, ?_, ?_, ?_, ?_⟩
  · simp [LibraryController.updateBook, hbfind]
  · simp [LibraryController.updateBook, hbfind]
  · simp [LibraryController.deleteBook, hbfind]
  · simp [LibraryController.deleteBook, hbfind]
  · simp [GenreController.updateGenre, hgfind, hnm]
  · simp [GenreController.updateGenre, hgfind, hnm]
  · simp only [GenreController.deleteGenre, hgfind]
    split
    · simp
    · simp

/-- Witness for C2 at a concrete store: the deleted book is inert, the
deleted genre is not. -/
theorem C2_deleted_book_inert_deleted_genre_not_witness :
    (LibraryController.updateBook "b1"
      ⟨none, none, none, none, none, none, none, none⟩ 10 stC1).status = 404 ∧
    (GenreController.updateGenre "g1" (some "SciFi") 10 stC1).data =
      some { gFiction with name := "SciFi", updated_at := 10 } :=
  have h := C2_deleted_book_inert_deleted_genre_not stC1 10 "b1"
    ⟨none, none, none, none, none, none, none, none⟩
    (by intro x hx hxid
        simp only [stC1, List.mem_cons, List.not_mem_nil, or_false] at hx
        subst hx
        simp [bDune])
    "g1" gFiction (by simp [stC1]) rfl 5 rfl
    (by intro x hx hxid
        simp only [stC1, List.mem_cons, List.not_mem_nil, or_false] at hx
        rcases hx with rfl | rfl
        · rfl
        · exact absurd hxid (by decide))
    "SciFi" (by decide)
  ⟨h.1, h.2.2.2.2.2.1⟩

/-- C3: deleting a Book with a referencing OrderItem fails with the
Conflict-class 400 and leaves the store (hence the active book)
untouched; deleting a Genre referenced by any Book row — soft-deleted
ones included — fails the same way; with zero dependents both deletes
succeed (200) and set `deleted_at`. -/
theorem C3_delete_guards
    (st : Store) (now : Nat)
    (bid : String) (b : Book) (hb : b ∈ st.books) (hbid : b.id = bid)
    (hbact : b.deleted_at = none)
    (buniq : ∀ x ∈ st.books, x.id = bid → x.deleted_at = none → x = b)
    (gid : String) (g : Genre) (hg : g ∈ st.genres) (hgid : g.id = gid)
    (guniq : ∀ x ∈ st.genres, x.id = gid → x = g) :
    ((∃ oi ∈ st.order_items, oi.book_id = bid) →
      (LibraryController.deleteBook bid now st).status = 400 ∧
      (LibraryController.deleteBook bid now st).store = st) ∧
    ((∀ oi ∈ st.order_items, oi.book_id ≠ bid) →
      (LibraryController.deleteBook bid now st).status = 200 ∧
      (LibraryController.deleteBook bid now st).data =
        some { b with deleted_at := some now, updated_at := now }) ∧
    ((∃ bk ∈ st.books, bk.genre_id = gid) →
      (GenreController.deleteGenre gid now st).status = 400 ∧
      (GenreController.deleteGenre gid now st).store = st) ∧
    ((∀ bk ∈ st.books, bk.genre_id ≠ gid) →
      (GenreController.deleteGenre gid now st).status = 200 ∧
      (GenreController.deleteGenre gid now st).data =
        some { g with deleted_at := some now, updated_at := now }) := by
  have hbfind : st.books.find?
      (fun x => x.id == bid && x.deleted_at == none) = some b :=
    find?_of_unique hb (by simp [hbid, hbact])
      (fun x hx hpx => by
        have h2 := Bool.and_eq_true _ _ |>.mp hpx
        exact buniq x hx (by simpa using h2.1) (by simpa using h2.2))
  have hgfind : st.genres.find? (fun x => x.id == gid) = some g :=
    find?_of_unique hg (by simpa using hgid)
      (fun x hx hpx => guniq x hx (by simpa using hpx))
  refine ⟨?_, ?_, ?_, ?_⟩
  · rintro ⟨oi, hoi, hoib⟩
    have hfil : (st.order_items.filter (fun x => x.book_id == bid)).length > 0 := by
      refine List.length_pos.mpr ?_
      intro hnil
      exact absurd (by simpa using hoib)
        (by simpa using List.filter_eq_nil_iff.mp hnil oi hoi)
    constructor
    · simp [LibraryController.deleteBook, hbfind, hfil]
    · simp [LibraryController.deleteBook, hbfind, hfil]
  · intro hnone
    have hfil : (st.order_items.filter (fun x => x.book_id == bid)) = [] :=
      List.filter_eq_nil_iff.mpr (fun x hx => by simpa using hnone x hx)
    constructor
    · simp [LibraryController.deleteBook, hbfind, hfil]
    · simp [LibraryController.deleteBook, hbfind, hfil]
  · rintro ⟨bk, hbk, hbkg⟩
    have hfil : (st.books.filter (fun x => x.genre_id == gid)).length > 0 := by
      refine List.length_pos.mpr ?_
      intro hnil
      exact absurd (by simpa using hbkg)
        (by simpa using List.filter_eq_nil_iff.mp hnil bk hbk)
    constructor
    · simp [GenreController.deleteGenre, hgfind, hfil]
    · simp [GenreController.deleteGenre, hgfind, hfil]
  · intro hnone
    have hfil : (st.books.filter (fun x => x.genre_id == gid)) = [] :=
      List.filter_eq_nil_iff.mpr (fun x hx => by simpa using hnone x hx)
    constructor
    · simp [GenreController.deleteGenre, hgfind, hfil]
    · simp [GenreController.deleteGenre, hgfind, hfil]

/-- Witness for C3 at a concrete store: the referenced book cannot be
deleted (400, store untouched). -/
theorem C3_delete_guards_witness :
    (LibraryController.deleteBook "b3" 10 stC3).status = 400 ∧
    (LibraryController.deleteBook "b3" 10 stC3).store = stC3 :=
  (C3_delete_guards stC3 10 "b3" bAct (by simp [stC3]) rfl rfl
    (by intro x hx hxid hxact
        simp only [stC3, List.mem_cons, List.not_mem_nil, or_false] at hx
        subst hx
        rfl)
    "g2" gSci (by simp [stC3]) rfl
    (by intro x hx hxid
        simp only [stC3, List.mem_cons, List.not_mem_nil, or_false] at hx
        subst hx
        rfl)).1 ⟨oi1, by simp [stC3], rfl⟩

/-- C4 counterexample: the bcrypt `createTransaction` variant
(transactionController) performs no reference checks, so a request with
a dangling `book_id` is answered 500 — not 404 — after the Order row has
already been persisted. -/
theorem C4_no_write_before_checks_counterexample :
    (TransactionController.createTransaction (some "u1")
      (some [⟨some "b9", some (JsNum.num 1)⟩]) 10 "o9" (fun _ => "i0")
      stC4).status = 500 ∧
    (TransactionController.createTransaction (some "u1")
      (some [⟨some "b9", some (JsNum.num 1)⟩]) 10 "o9" (fun _ => "i0")
      stC4).store.orders.length = stC4.orders.length + 1 ∧
    ¬(TransactionController.createTransaction (some "u1")
      (some [⟨some "b9", some (JsNum.num 1)⟩]) 10 "o9" (fun _ => "i0")
      stC4).status = 404 := by
  refine ⟨rfl, rfl, by decide⟩

/-- C4 amended: the uuid `createTransaction` variant (libraryController)
does complete every reference check before any write — a missing user or
any item with a dangling `book_id` yields a 404 with the store
untouched — while the bcrypt variant checks nothing and persists the
Order row before failing (see the counterexample). -/
theorem C4_uuid_variant_checks_before_writes
    (st : Store) (now : Nat) (orderId : String) (itemId : Nat → String)
    (uid : String) (huid : uid ≠ "") (its : List ItemReq) (hits : its ≠ [])
    (hshape : ∀ it ∈ its, itemInvalid it = false)
    (hfail : (∀ u ∈ st.users, u.id ≠ uid) ∨
      (∃ it ∈ its, ∀ b ∈ st.books, b.id ≠ it.book_id.getD "")) :
    (LibraryController.createTransaction (some uid) (some its) now orderId
      itemId st).status = 404 ∧
    (LibraryController.createTransaction (some uid) (some its) now orderId
      itemId st).store = st := by
  have hres : LibraryController.createTransaction (some uid) (some its) now
      orderId itemId st = ⟨404, none, st⟩ := by
    simp only [LibraryController.createTransaction]
    rw [if_neg (by simp [huid, hits])]
    rw [if_neg (by
      simp only [List.any_eq_true, not_exists]
      intro x
      simp only [not_and]
      intro hx
      simp [hshape x hx])]
    rcases hfail with hu | ⟨it, hit, hnob⟩
    · have hfind : st.users.find? (fun u => u.id == uid) = none := by
        apply List.find?_eq_none.mpr
        intro x hx
        simp [hu x hx]
      rw [if_pos (by simp [hfind])]
    · rcases hufind : st.users.find? (fun u => u.id == uid) with _ | u
      · rw [if_pos (by simp [hufind])]
      · rw [if_neg (by simp [hufind])]
        have hbfind : st.books.find?
            (fun b => b.id == it.book_id.getD "") = none := by
          apply List.find?_eq_none.mpr
          intro x hx
          simp [hnob x hx]
        rw [if_pos (List.any_eq_true.mpr ⟨it, hit, by simp [hbfind]⟩)]
  exact ⟨by rw [hres], by rw [hres]⟩

/-- Witness for C4's amended theorem: a dangling `book_id` makes the
uuid variant answer 404 with no rows persisted. -/
theorem C4_uuid_variant_checks_before_writes_witness :
    (LibraryController.createTransaction (some "u1")
      (some [⟨some "b9", some (JsNum.num 1)⟩]) 10 "o9" (fun _ => "i0")
      stC4).status = 404 ∧
    (LibraryController.createTransaction (some "u1")
      (some [⟨some "b9", some (JsNum.num 1)⟩]) 10 "o9" (fun _ => "i0")
      stC4).store = stC4 :=
  C4_uuid_variant_checks_before_writes stC4 10 "o9" (fun _ => "i0")
    "u1" (by decide) [⟨some "b9", some (JsNum.num 1)⟩] (by simp)
    (by intro it hit
        simp only [List.mem_cons, List.not_mem_nil, or_false] at hit
        subst hit
        rfl)
    (Or.inr ⟨⟨some "b9", some (JsNum.num 1)⟩, by simp, by simp [stC4]⟩)

/-- Folding additions of `f` starting from `a` is `a` plus the mapped
sum. -/
theorem foldl_add_map_sum {α : Type} (f : α → ℚ) (l : List α) (a : ℚ) :
    l.foldl (fun s x => s + f x) a = a + (l.map f).sum := by
  induction l generalizing a with
  | nil => simp
  | cons x xs ih => simp [ih, add_assoc]

/-- C5: every order in the transaction listing carries
`totalAmount = Σ quantity·price` over its items and
`avgPrice = (Σ unit prices)/count` — the average of unit prices, not of
line totals — with an empty order's average exactly 0. -/
theorem C5_listing_totals_and_average (ts : List FetchedOrder)
    (x : LibraryController.OrderWithTotals)
    (hx : x ∈ LibraryController.transactionsWithTotals ts) :
    x.totalAmount =
      (x.t.order_items.map (fun i => i.quantity * i.book.price)).sum ∧
    x.avgPrice = (if x.t.order_items.length = 0 then 0
      else (x.t.order_items.map (fun i => i.book.price)).sum /
        (x.t.order_items.length : ℚ)) := by
  obtain ⟨t, ht, rfl⟩ := List.mem_map.mp hx
  constructor
  · simpa [LibraryController.totalAmount] using
      foldl_add_map_sum (fun i => i.quantity * i.book.price) t.order_items 0
  · simp only [LibraryController.avgPrice]
    rcases Nat.eq_zero_or_pos t.order_items.length with h0 | hpos
    · simp [h0]
    · rw [if_pos hpos, if_neg (by omega)]
      rw [foldl_add_map_sum]
      simp

/-- Witness for C5 on a concrete two-item order: total 40, average 15. -/
theorem C5_listing_totals_and_average_witness :
    (⟨tOrd, LibraryController.totalAmount tOrd,
        LibraryController.avgPrice tOrd⟩ :
      LibraryController.OrderWithTotals).totalAmount =
      (tOrd.order_items.map (fun i => i.quantity * i.book.price)).sum ∧
    (⟨tOrd, LibraryController.totalAmount tOrd,
        LibraryController.avgPrice tOrd⟩ :
      LibraryController.OrderWithTotals).avgPrice =
      (if tOrd.order_items.length = 0 then 0
        else (tOrd.order_items.map (fun i => i.book.price)).sum /
          (tOrd.order_items.length : ℚ)) :=
  C5_listing_totals_and_average [tOrd]
    ⟨tOrd, LibraryController.totalAmount tOrd, LibraryController.avgPrice tOrd⟩
    (by simp [LibraryController.transactionsWithTotals])

/-- Membership through the Set-building fold. -/
theorem mem_setFold (l : List (Option String)) (acc : List (Option String))
    (y : Option String) :
    (y ∈ l.foldl (fun a x => if x ∈ a then a else a ++ [x]) acc) ↔
      y ∈ acc ∨ y ∈ l := by
  induction l generalizing acc with
  | nil => simp
  | cons x xs ih =>
    simp only [List.foldl_cons]
    by_cases hx : x ∈ acc
    · rw [if_pos hx, ih]
      simp only [List.mem_cons]
      constructor
      · rintro (h | h)
        · exact Or.inl h
        · exact Or.inr (Or.inr h)
      · rintro (h | rfl | h)
        · exact Or.inl h
        · exact Or.inl hx
        · exact Or.inr h
    · rw [if_neg hx, ih]
      simp only [List.mem_append, List.mem_cons, List.mem_singleton]
      tauto

/-- The Set-building fold creates no duplicates. -/
theorem nodup_setFold (l : List (Option String)) (acc : List (Option String))
    (hacc : acc.Nodup) :
    (l.foldl (fun a x => if x ∈ a then a else a ++ [x]) acc).Nodup := by
  induction l generalizing acc with
  | nil => simpa using hacc
  | cons x xs ih =>
    simp only [List.foldl_cons]
    by_cases hx : x ∈ acc
    · rw [if_pos hx]
      exact ih acc hacc
    · rw [if_neg hx]
      refine ih _ ?_
      simp [List.nodup_append, hacc, hx]

/-- Membership in `setDedup` is membership in the original list. -/
theorem mem_setDedup (l : List (Option String)) (y : Option String) :
    y ∈ LibraryController.setDedup l ↔ y ∈ l := by
  rw [LibraryController.setDedup, mem_setFold]
  simp

/-- `setDedup` produces a duplicate-free list. -/
theorem nodup_setDedup (l : List (Option String)) :
    (LibraryController.setDedup l).Nodup :=
  nodup_setFold l [] List.nodup_nil

/-- Bumping a genre increments exactly its own frequency. -/
theorem freq_bump_self (s : List (String × Nat)) (g : String) :
    LibraryController.freq (LibraryController.bump s g) g =
      LibraryController.freq s g + 1 := by
  induction s with
  | nil => simp [LibraryController.bump, LibraryController.freq]
  | cons p ps ih =>
    by_cases h : p.1 = g
    · simp [LibraryController.bump, LibraryController.freq, h]
    · simp [LibraryController.bump, LibraryController.freq, h, ih]

/-- Bumping a genre leaves the other frequencies alone. -/
theorem freq_bump_ne (s : List (String × Nat)) (g g1 : String)
    (h : g1 ≠ g) :
    LibraryController.freq (LibraryController.bump s g) g1 =
      LibraryController.freq s g1 := by
  have hgg1 : ¬g = g1 := fun hh => h hh.symm
  induction s with
  | nil =>
    simp [LibraryController.bump, LibraryController.freq, hgg1]
  | cons p ps ih =>
    by_cases hp : p.1 = g
    · have hp1 : ¬p.1 = g1 := by rw [hp]; exact hgg1
      simp [LibraryController.bump, LibraryController.freq, hp, hp1, hgg1]
    · by_cases hp1 : p.1 = g1
      · simp [LibraryController.bump, LibraryController.freq, hp, hp1, h,
          hgg1]
      · simp [LibraryController.bump, LibraryController.freq, hp, hp1, ih]

/-- A fold of `statStep` over a list not containing `some g` does not
change the frequency of `g`. -/
theorem freq_statStep_fold_not_mem (L : List (Option String))
    (acc : List (String × Nat)) (g : String) (hg : some g ∉ L) :
    LibraryController.freq (L.foldl LibraryController.statStep acc) g =
      LibraryController.freq acc g := by
  induction L generalizing acc with
  | nil => rfl
  | cons x xs ih =>
    have hx : x ≠ some g := fun h => hg (h ▸ List.mem_cons_self x xs)
    have hxs : some g ∉ xs := fun h => hg (List.mem_cons_of_mem _ h)
    rw [List.foldl_cons, ih _ hxs]
    match x, hx with
    | none, _ => rfl
    | some g1, hx =>
      have hg1 : g1 ≠ g := fun h => hx (by rw [h])
      by_cases he : g1 = ""
      · simp [LibraryController.statStep, he]
      · simp [LibraryController.statStep, he, freq_bump_ne _ _ _ (Ne.symm hg1)]

/-- A fold of `statStep` over a duplicate-free list containing `some g`
(with `g` non-falsy) bumps the frequency of `g` exactly once. -/
theorem freq_statStep_fold_mem (L : List (Option String))
    (acc : List (String × Nat)) (g : String) (hg : g ≠ "")
    (hnd : L.Nodup) (hmem : some g ∈ L) :
    LibraryController.freq (L.foldl LibraryController.statStep acc) g =
      LibraryController.freq acc g + 1 := by
  induction L generalizing acc with
  | nil => cases hmem
  | cons x xs ih =>
    rw [List.foldl_cons]
    by_cases hx : x = some g
    · subst hx
      have hxs : some g ∉ xs := (List.nodup_cons.mp hnd).1
      rw [freq_statStep_fold_not_mem xs _ g hxs]
      simp [LibraryController.statStep, hg, freq_bump_self]
    · have hmem2 : some g ∈ xs := by
        rcases List.mem_cons.mp hmem with h | h
        · exact absurd h.symm hx
        · exact h
      rw [ih _ (List.nodup_cons.mp hnd).2 hmem2]
      congr 1
      match x, hx with
      | none, _ => rfl
      | some g1, hx =>
        have hg1 : g ≠ g1 := fun h => hx (by rw [h])
        by_cases he : g1 = ""
        · simp [LibraryController.statStep, he]
        · simp [LibraryController.statStep, he, freq_bump_ne _ _ _ hg1]

/-- Each order contributes exactly 1 to the frequency of every non-falsy
genre it touches. -/
theorem freq_genreStats_fold (ts : List FetchedOrder)
    (acc : List (String × Nat)) (g : String) (hg : g ≠ "") :
    LibraryController.freq (ts.foldl LibraryController.addOrderGenres acc) g =
      LibraryController.freq acc g +
        ts.countP (fun t => t.order_items.any (fun i => i.book.genre == some g)) := by
  induction ts generalizing acc with
  | nil => simp
  | cons t ts2 ih =>
    rw [List.foldl_cons, ih, List.countP_cons]
    by_cases hmem : some g ∈ LibraryController.touchedGenres t
    · have h1 : LibraryController.freq (LibraryController.addOrderGenres acc t) g =
          LibraryController.freq acc g + 1 :=
        freq_statStep_fold_mem _ _ _ hg (nodup_setDedup _) hmem
      have h2 : (t.order_items.any (fun i => i.book.genre == some g)) = true := by
        rw [List.any_eq_true]
        obtain ⟨i, hi, hig⟩ :=
          List.mem_map.mp ((mem_setDedup _ _).mp hmem)
        exact ⟨i, hi, by simp [hig]⟩
      rw [h1, h2]
      simp
      omega
    · have h1 : LibraryController.freq (LibraryController.addOrderGenres acc t) g =
          LibraryController.freq acc g :=
        freq_statStep_fold_not_mem _ _ _ hmem
      have h2 : (t.order_items.any (fun i => i.book.genre == some g)) = false := by
        rw [List.any_eq_false]
        intro i hi
        intro hig
        exact hmem ((mem_setDedup _ _).mpr
          (List.mem_map.mpr ⟨i, hi, by simpa using hig⟩))
      rw [h1, h2]
      simp

/-- Folding plain addition from 0 is the list sum. -/
theorem foldl_add_sum (l : List ℚ) : l.foldl (fun a b => a + b) 0 = l.sum := by
  simpa using foldl_add_map_sum (fun x : ℚ => x) l 0

/-- C6: `totalTransactions` is the order count, `avgTransactionValue` is
the mean of the per-order totals (0 with no orders), the frequency of a
genre counts the orders whose distinct touched-genre set contains it
(one order touching a genre through two books counts once), and both
top and least genre are null with no orders or no touched genres. -/
theorem C6_global_statistics (ts : List FetchedOrder) (g : String)
    (hg : g ≠ "") :
    (LibraryController.getTransactionStats ts).totalTransactions = ts.length ∧
    (LibraryController.getTransactionStats ts).avgTransactionValue =
      (if ts.length = 0 then 0
       else (ts.map LibraryController.totalAmount).sum / (ts.length : ℚ)) ∧
    LibraryController.freq (LibraryController.genreStats ts) g =
      ts.countP (fun t => t.order_items.any (fun i => i.book.genre == some g)) ∧
    ((ts = [] ∨ LibraryController.genreStats ts = []) →
      (LibraryController.getTransactionStats ts).topGenre = none ∧
      (LibraryController.getTransactionStats ts).leastGenre = none) := by
  refine ⟨?_, ?_, ?_, ?_⟩
  · by_cases h : ts = []
    · simp [LibraryController.getTransactionStats, h]
    · simp [LibraryController.getTransactionStats, h]
  · by_cases h : ts = []
    · simp [LibraryController.getTransactionStats, h]
    · rw [if_neg (by simpa using fun hh => h hh)]
      simp only [LibraryController.getTransactionStats]
      rw [if_neg (by simpa using h)]
      simp only
      rw [foldl_add_sum]
  · have := freq_genreStats_fold ts [] g hg
    simpa [LibraryController.genreStats, LibraryController.freq] using this
  · rintro (rfl | hstats)
    · simp [LibraryController.getTransactionStats]
    · by_cases h : ts = []
      · simp [LibraryController.getTransactionStats, h]
      · simp only [LibraryController.getTransactionStats]
        rw [if_neg (by simpa using h)]
        simp [hstats, LibraryController.sortStats]

/-- Inserting never yields the empty list. -/
theorem insertDesc_ne_nil (e : String × Nat) (l : List (String × Nat)) :
    LibraryController.insertDesc e l ≠ [] := by
  cases l with
  | nil => simp [LibraryController.insertDesc]
  | cons x xs =>
    simp only [LibraryController.insertDesc]
    split
    · simp
    · simp

/-- Membership through `insertDesc`. -/
theorem mem_insertDesc (a e : String × Nat) (l : List (String × Nat)) :
    a ∈ LibraryController.insertDesc e l ↔ a = e ∨ a ∈ l := by
  induction l with
  | nil => simp [LibraryController.insertDesc]
  | cons x xs ih =>
    simp only [LibraryController.insertDesc]
    split
    · simp
    · simp only [List.mem_cons, ih]
      tauto

/-- Membership through `sortStats`. -/
theorem mem_sortStats (a : String × Nat) (l : List (String × Nat)) :
    a ∈ LibraryController.sortStats l ↔ a ∈ l := by
  induction l with
  | nil => simp [LibraryController.sortStats]
  | cons x xs ih =>
    simp only [LibraryController.sortStats, mem_insertDesc, List.mem_cons, ih]

/-- `sortStats` returns the empty list only for the empty list. -/
theorem sortStats_eq_nil_iff (l : List (String × Nat)) :
    LibraryController.sortStats l = [] ↔ l = [] := by
  cases l with
  | nil => simp [LibraryController.sortStats]
  | cons x xs =>
    simp only [LibraryController.sortStats]
    constructor
    · intro h
      exact absurd h (insertDesc_ne_nil _ _)
    · intro h
      cases h

/-- Where the inserted entry ends up last: only when its count is
strictly below every present count. -/
theorem getLast?_insertDesc (e : String × Nat) (l : List (String × Nat)) :
    (LibraryController.insertDesc e l).getLast? =
      if l.any (fun x => decide (e.2 ≥ x.2)) then l.getLast? else some e := by
  induction l with
  | nil => simp [LibraryController.insertDesc]
  | cons x xs ih =>
    simp only [LibraryController.insertDesc]
    by_cases hx : e.2 ≥ x.2
    · rw [if_pos hx]
      rw [List.getLast?_cons_cons]
      rw [if_pos (by simp [List.any_cons, hx])]
    · rw [if_neg hx]
      obtain ⟨y, ys, hy⟩ := List.exists_cons_of_ne_nil (insertDesc_ne_nil e xs)
      rw [hy, List.getLast?_cons_cons, ← hy, ih]
      by_cases hany : xs.any (fun x => decide (e.2 ≥ x.2)) = true
      · rw [if_pos hany, if_pos (by simp [List.any_cons, hany])]
        have hxs : xs ≠ [] := by
          intro hnil
          rw [hnil] at hany
          simp at hany
        obtain ⟨z, zs, hz⟩ := List.exists_cons_of_ne_nil hxs
        rw [hz, List.getLast?_cons_cons]
      · rw [if_neg hany, if_neg (by simp [List.any_cons, hx, hany]
          )]

/-- The last element (when present) is a member. -/
theorem mem_of_getLast?_eq {α : Type} {l : List α} {a : α}
    (h : l.getLast? = some a) : a ∈ l := by
  induction l with
  | nil => cases h
  | cons x xs ih =>
    cases xs with
    | nil =>
      simp only [List.getLast?_singleton, Option.some.injEq] at h
      simp [h]
    | cons y ys =>
      rw [List.getLast?_cons_cons] at h
      exact List.mem_cons_of_mem _ (ih h)

/-- The head of the insertion step. -/
theorem head?_insertDesc (e : String × Nat) (l : List (String × Nat)) :
    (LibraryController.insertDesc e l).head? =
      (match l with
       | [] => some e
       | x :: _ => if e.2 ≥ x.2 then some e else some x) := by
  cases l with
  | nil => rfl
  | cons x xs =>
    by_cases h : e.2 ≥ x.2
    · simp [LibraryController.insertDesc, h]
    · simp [LibraryController.insertDesc, h]

/-- `lastMinEntry` answers `none` only on the empty list. -/
theorem lastMinEntry_eq_none_iff (l : List (String × Nat)) :
    lastMinEntry l = none ↔ l = [] := by
  cases l with
  | nil => simp [lastMinEntry]
  | cons p ps =>
    simp only [lastMinEntry]
    cases h : lastMinEntry ps with
    | none => simp
    | some q =>
      constructor
      · intro hh
        by_cases hle : q.2 ≤ p.2 <;> simp [hle] at hh
      · intro hh
        cases hh

/-- `lastMinEntry` returns an entry of minimal count. -/
theorem lastMinEntry_le (l : List (String × Nat)) :
    ∀ (q : String × Nat), lastMinEntry l = some q → ∀ x ∈ l, q.2 ≤ x.2 := by
  induction l with
  | nil => intro q hq; cases hq
  | cons p ps ih =>
    intro q hq x hx
    rcases h : lastMinEntry ps with _ | q2
    · simp only [lastMinEntry, h, Option.some.injEq] at hq
      subst hq
      rcases List.mem_cons.mp hx with rfl | hx2
      · exact le_refl _
      · exact absurd ((lastMinEntry_eq_none_iff ps).mp h ▸ hx2)
          (List.not_mem_nil x)
    · simp only [lastMinEntry, h] at hq
      by_cases hle : q2.2 ≤ p.2
      · rw [if_pos hle] at hq
        simp only [Option.some.injEq] at hq
        subst hq
        rcases List.mem_cons.mp hx with rfl | hx2
        · exact hle
        · exact ih q2 h x hx2
      · rw [if_neg hle] at hq
        simp only [Option.some.injEq] at hq
        subst hq
        rcases List.mem_cons.mp hx with rfl | hx2
        · exact le_refl _
        · exact le_trans (le_of_not_le hle) (ih q2 h x hx2)

/-- The head of the stable descending sort is the first-encountered
entry of maximal count. -/
theorem sortStats_head?_eq_firstMaxEntry (l : List (String × Nat)) :
    (LibraryController.sortStats l).head? = firstMaxEntry l := by
  induction l with
  | nil => rfl
  | cons p ps ih =>
    simp only [LibraryController.sortStats, firstMaxEntry]
    rcases hs : LibraryController.sortStats ps with _ | ⟨x, xs⟩
    · have hps : ps = [] := (sortStats_eq_nil_iff ps).mp hs
      subst hps
      simp [LibraryController.insertDesc, firstMaxEntry]
    · rw [hs] at ih
      simp only [List.head?_cons] at ih
      rw [head?_insertDesc, ← ih]

/-- The last element of the stable descending sort is the
last-encountered entry of minimal count. -/
theorem sortStats_getLast?_eq_lastMinEntry (l : List (String × Nat)) :
    (LibraryController.sortStats l).getLast? = lastMinEntry l := by
  induction l with
  | nil => rfl
  | cons p ps ih =>
    simp only [LibraryController.sortStats]
    rw [getLast?_insertDesc]
    rcases hm : lastMinEntry ps with _ | q
    · have hps : ps = [] := (lastMinEntry_eq_none_iff ps).mp hm
      subst hps
      simp [LibraryController.sortStats, lastMinEntry]
    · rw [hm] at ih
      have hqmem : q ∈ LibraryController.sortStats ps := mem_of_getLast?_eq ih
      have hqle : ∀ x ∈ ps, q.2 ≤ x.2 := lastMinEntry_le ps q hm
      simp only [lastMinEntry, hm]
      by_cases hle : q.2 ≤ p.2
      · rw [if_pos (List.any_eq_true.mpr ⟨q, hqmem, by simpa using hle⟩), ih,
          if_pos hle]
      · rw [if_neg ?hany, if_neg hle]
        case hany =>
          intro hany
          obtain ⟨x, hx, hxle⟩ := List.any_eq_true.mp hany
          exact hle (le_trans (hqle x ((mem_sortStats x ps).mp hx))
            (by simpa using hxle))

/-- Witness for C6 on two concrete one-item orders. -/
theorem C6_global_statistics_witness :
    (LibraryController.getTransactionStats [oA, oB]).totalTransactions =
      [oA, oB].length ∧
    LibraryController.freq (LibraryController.genreStats [oA, oB]) "A" =
      [oA, oB].countP
        (fun t => t.order_items.any (fun i => i.book.genre == some "A")) :=
  have h := C6_global_statistics [oA, oB] "A" (by decide)
  ⟨h.1, h.2.2.1⟩

/-- C7 counterexample: with two orders touching genres "A" then "B",
both frequencies are 1; `topGenre` is the first-encountered "A", but
`leastGenre` is "B" — the *last*-encountered of the tied-lowest — so the
claim's "first-encountered wins" direction for `least_genre` is false. -/
theorem C7_least_genre_tie_break_counterexample :
    LibraryController.genreStats [oA, oB] = [("A", 1), ("B", 1)] ∧
    (LibraryController.getTransactionStats [oA, oB]).topGenre =
      some ("A", 1) ∧
    (LibraryController.getTransactionStats [oA, oB]).leastGenre =
      some ("B", 1) ∧
    ¬(LibraryController.getTransactionStats [oA, oB]).leastGenre =
      some ("A", 1) := by
  refine ⟨rfl, rfl, rfl, by decide⟩

/-- C7 amended: `topGenre` is the first-encountered entry of maximal
frequency in the record's insertion order, but `leastGenre` is the
*last*-encountered entry of minimal frequency — the stable descending
sort leaves the latest-inserted of the tied-lowest at the end, so the
two tie-breaks run in opposite directions. -/
theorem C7_tie_break_top_first_least_last (ts : List FetchedOrder) :
    (LibraryController.getTransactionStats ts).topGenre =
      firstMaxEntry (LibraryController.genreStats ts) ∧
    (LibraryController.getTransactionStats ts).leastGenre =
      lastMinEntry (LibraryController.genreStats ts) := by
  by_cases h : ts = []
  · subst h
    exact ⟨rfl, rfl⟩
  · simp only [LibraryController.getTransactionStats]
    rw [if_neg (by simpa using h)]
    exact ⟨sortStats_head?_eq_firstMaxEntry _,
      sortStats_getLast?_eq_lastMinEntry _⟩

/-- C8 counterexample: updating an active genre with a *present but
empty* name leaves the stored name unchanged (`name || genre.name`
treats `""` as absent), so "fields present with an empty value are still
applied" fails for Genre. -/
theorem C8_empty_value_applied_counterexample :
    (GenreController.updateGenre "g2" (some "") 10 stC3).status = 200 ∧
    (GenreController.updateGenre "g2" (some "") 10 stC3).data.map
      Genre.name = some "Sci" ∧
    ¬(GenreController.updateGenre "g2" (some "") 10 stC3).data.map
      Genre.name = some "" := by
  refine ⟨rfl, rfl, by decide⟩

/-- C8 amended: Book updates have full partial-update semantics — every
field absent from the request is left untouched and every present field
is applied, empty or zero values included; Genre updates share the
absent-untouched half but treat a present empty-string name as absent
(the old name is kept), applying only non-empty names. -/
theorem C8_partial_update_semantics
    (st : Store) (now : Nat) (bid : String) (req : BookUpdateReq)
    (b : Book) (hb : b ∈ st.books) (hbid : b.id = bid)
    (hbact : b.deleted_at = none)
    (buniq : ∀ x ∈ st.books, x.id = bid → x.deleted_at = none → x = b)
    (gid : String) (g : Genre) (hg : g ∈ st.genres) (hgid : g.id = gid)
    (guniq : ∀ x ∈ st.genres, x.id = gid → x = g)
    (nm : Option String) :
    ((LibraryController.updateBook bid req now st).status = 200 →
      (LibraryController.updateBook bid req now st).data =
        some (LibraryController.applyBookUpdate b req now)) ∧
    (req.title = none →
      (LibraryController.applyBookUpdate b req now).title = b.title) ∧
    (∀ s, req.title = some s →
      (LibraryController.applyBookUpdate b req now).title = s) ∧
    (req.writer = none →
      (LibraryController.applyBookUpdate b req now).writer = b.writer) ∧
    (∀ s, req.writer = some s →
      (LibraryController.applyBookUpdate b req now).writer = s) ∧
    (req.publisher = none →
      (LibraryController.applyBookUpdate b req now).publisher = b.publisher) ∧
    (∀ s, req.publisher = some s →
      (LibraryController.applyBookUpdate b req now).publisher = s) ∧
    (req.description = none →
      (LibraryController.applyBookUpdate b req now).description =
        b.description) ∧
    (∀ v, req.description = some v →
      (LibraryController.applyBookUpdate b req now).description = v) ∧
    (req.publication_year = none →
      (LibraryController.applyBookUpdate b req now).publication_year =
        b.publication_year) ∧
    (∀ q, req.publication_year = some (JsNum.num q) →
      (LibraryController.applyBookUpdate b req now).publication_year = q) ∧
    (req.price = none →
      (LibraryController.applyBookUpdate b req now).price = b.price) ∧
    (∀ q, req.price = some (JsNum.num q) →
      (LibraryController.applyBookUpdate b req now).price = q) ∧
    (req.stock_quantity = none →
      (LibraryController.applyBookUpdate b req now).stock_quantity =
        b.stock_quantity) ∧
    (∀ q, req.stock_quantity = some (JsNum.num q) →
      (LibraryController.applyBookUpdate b req now).stock_quantity = q) ∧
    (req.genre_id = none →
      (LibraryController.applyBookUpdate b req now).genre_id = b.genre_id) ∧
    (∀ s, req.genre_id = some s →
      (LibraryController.applyBookUpdate b req now).genre_id = s) ∧
    (LibraryController.applyBookUpdate b req now).id = b.id ∧
    (LibraryController.applyBookUpdate b req now).created_at = b.created_at ∧
    (LibraryController.applyBookUpdate b req now).deleted_at = b.deleted_at ∧
    (LibraryController.applyBookUpdate b req now).updated_at = now ∧
    (GenreController.updateGenre gid nm now st).status = 200 ∧
    (nm = none →
      (GenreController.updateGenre gid nm now st).data.map Genre.name =
        some g.name) ∧
    (nm = some "" →
      (GenreController.updateGenre gid nm now st).data.map Genre.name =
        some g.name) ∧
    (∀ s, nm = some s → s ≠ "" →
      (GenreController.updateGenre gid nm now st).data.map Genre.name =
        some s) := by
  have hbfind : st.books.find?
      (fun x => x.id == bid && x.deleted_at == none) = some b :=
    find?_of_unique hb (by simp [hbid, hbact])
      (fun x hx hpx => by
        have h2 := Bool.and_eq_true _ _ |>.mp hpx
        exact buniq x hx (by simpa using h2.1) (by simpa using h2.2))
  have hgfind : st.genres.find? (fun x => x.id == gid) = some g :=
    find?_of_unique hg (by simpa using hgid)
      (fun x hx hpx => guniq x hx (by simpa using hpx))
  refine ⟨?_, ?_, ?_, ?_, ?_, ?_, ?_, ?_, ?_, ?_, ?_, ?_, ?_, ?_, ?_, ?_,
    ?_, ?_, ?_, ?_, ?_, ?_, ?_, ?_, ?_⟩
  · simp only [LibraryController.updateBook, hbfind]
    split_ifs <;> intro hc
    · simp at hc
    · simp at hc
    · simp at hc
    · simp at hc
    · simp at hc
    · simp at hc
    · rfl
  · intro h; simp [LibraryController.applyBookUpdate, h]
  · intro s h; simp [LibraryController.applyBookUpdate, h]
  · intro h; simp [LibraryController.applyBookUpdate, h]
  · intro s h; simp [LibraryController.applyBookUpdate, h]
  · intro h; simp [LibraryController.applyBookUpdate, h]
  · intro s h; simp [LibraryController.applyBookUpdate, h]
  · intro h; simp [LibraryController.applyBookUpdate, h]
  · intro v h; simp [LibraryController.applyBookUpdate, h]
  · intro h; simp [LibraryController.applyBookUpdate, h]
  · intro q h; simp [LibraryController.applyBookUpdate, h]
  · intro h; simp [LibraryController.applyBookUpdate, h]
  · intro q h; simp [LibraryController.applyBookUpdate, h]
  · intro h; simp [LibraryController.applyBookUpdate, h]
  · intro q h; simp [LibraryController.applyBookUpdate, h]
  · intro h; simp [LibraryController.applyBookUpdate, h]
  · intro s h; simp [LibraryController.applyBookUpdate, h]
  · simp [LibraryController.applyBookUpdate]
  · simp [LibraryController.applyBookUpdate]
  · simp [LibraryController.applyBookUpdate]
  · simp [LibraryController.applyBookUpdate]
  · simp [GenreController.updateGenre, hgfind]
  · intro h; simp [GenreController.updateGenre, hgfind, h]
  · intro h; simp [GenreController.updateGenre, hgfind, h]
  · intro s h hs; simp [GenreController.updateGenre, hgfind, h, hs]

/-- Witness for C8: a present empty title and a zero price are applied
to the book, while a present empty genre name is not applied. -/
theorem C8_partial_update_semantics_witness :
    (LibraryController.applyBookUpdate bAct
      ⟨some "", none, none, none, none, some (JsNum.num 0), none, none⟩
      10).title = "" ∧
    (LibraryController.applyBookUpdate bAct
      ⟨some "", none, none, none, none, some (JsNum.num 0), none, none⟩
      10).price = 0 ∧
    (GenreController.updateGenre "g2" (some "") 10 stC3).data.map
      Genre.name = some gSci.name := by
  have h := C8_partial_update_semantics stC3 10 "b3"
    ⟨some "", none, none, none, none, some (JsNum.num 0), none, none⟩
    bAct (by simp [stC3]) rfl rfl
    (by intro x hx hxid hxact
        simp only [stC3, List.mem_cons, List.not_mem_nil, or_false] at hx
        subst hx
        rfl)
    "g2" gSci (by simp [stC3]) rfl
    (by intro x hx hxid
        simp only [stC3, List.mem_cons, List.not_mem_nil, or_false] at hx
        subst hx
        rfl)
    (some "")
  obtain ⟨h1, h2, h3, h4, h5, h6, h7, h8, h9, h10, h11, h12, h13, h14, h15,
    h16, h17, h18, h19, h20, h21, h22, h23, h24, h25⟩ := h
  exact ⟨h3 "" rfl, h13 0 rfl, h24 rfl⟩

/-- `createBook` rejects a negative or non-integral `stock_quantity`
with 400 and no write. -/
theorem createBook_bad_stock_rejected (req : BookCreateReq) (thisYear : ℚ)
    (now : Nat) (newId : String) (st : Store) (q : ℚ)
    (hq : req.stock_quantity = some (JsNum.num q))
    (hbad : q < 0 ∨ q.den ≠ 1) :
    (LibraryController.createBook req thisYear now newId st).status = 400 ∧
    (LibraryController.createBook req thisYear now newId st).store = st := by
  rcases req with ⟨tO, wO, pubO, dO, pyO, prO, sqO, gidO⟩
  simp only at hq
  subst hq
  simp only [LibraryController.createBook]
  repeat' split
  all_goals try simp_all [jsIsInteger]
  all_goals linarith

/-- `createBook` rejects a negative `price` with 400 and no write. -/
theorem createBook_neg_price_rejected (req : BookCreateReq) (thisYear : ℚ)
    (now : Nat) (newId : String) (st : Store) (q : ℚ)
    (hq : req.price = some (JsNum.num q)) (hbad : q < 0) :
    (LibraryController.createBook req thisYear now newId st).status = 400 ∧
    (LibraryController.createBook req thisYear now newId st).store = st := by
  rcases req with ⟨tO, wO, pubO, dO, pyO, prO, sqO, gidO⟩
  simp only at hq
  subst hq
  simp only [LibraryController.createBook]
  repeat' split
  all_goals try simp_all [jsIsInteger]
  all_goals linarith

/-- `updateBook` (on a found active row) rejects a negative or
non-integral `stock_quantity` with 400 and no write. -/
theorem updateBook_bad_stock_rejected (bid : String) (req : BookUpdateReq)
    (now : Nat) (st : Store) (b : Book)
    (hbfind : st.books.find?
      (fun x => x.id == bid && x.deleted_at == none) = some b)
    (q : ℚ) (hq : req.stock_quantity = some (JsNum.num q))
    (hbad : q < 0 ∨ q.den ≠ 1) :
    (LibraryController.updateBook bid req now st).status = 400 ∧
    (LibraryController.updateBook bid req now st).store = st := by
  simp only [LibraryController.updateBook, hbfind]
  split_ifs <;> try exact ⟨rfl, rfl⟩
  all_goals try simp_all [optBadStock, optNaN, jsIsInteger]
  all_goals linarith

/-- `updateBook` (on a found active row) rejects a negative `price`
with 400 and no write. -/
theorem updateBook_neg_price_rejected (bid : String) (req : BookUpdateReq)
    (now : Nat) (st : Store) (b : Book)
    (hbfind : st.books.find?
      (fun x => x.id == bid && x.deleted_at == none) = some b)
    (q : ℚ) (hq : req.price = some (JsNum.num q)) (hbad : q < 0) :
    (LibraryController.updateBook bid req now st).status = 400 ∧
    (LibraryController.updateBook bid req now st).store = st := by
  simp only [LibraryController.updateBook, hbfind]
  split_ifs <;> try exact ⟨rfl, rfl⟩
  all_goals try simp_all [optNegNum, optNaN]
  all_goals linarith

/-- Every store write of `createBook` keeps the stored-book invariant. -/
theorem createBook_preserves_BookOk (req : BookCreateReq) (thisYear : ℚ)
    (now : Nat) (newId : String) (st : Store)
    (hOk : ∀ x ∈ st.books, BookOk x) :
    ∀ x ∈ (LibraryController.createBook req thisYear now newId
      st).store.books, BookOk x := by
  simp only [LibraryController.createBook]
  repeat' split
  all_goals intro x hx
  all_goals try exact hOk x hx
  · rcases List.mem_map.mp hx with ⟨y, hy, rfl⟩
    split
    · simp only [BookOk, LibraryController.restoreFields]
      refine ⟨?_, ?_, ?_⟩ <;> simp_all [jsIsInteger, not_lt, not_or]
    · exact hOk y hy
  · rcases List.mem_append.mp hx with h | h
    · exact hOk x h
    · simp only [List.mem_singleton] at h
      subst h
      simp only [BookOk]
      refine ⟨?_, ?_, ?_⟩ <;> simp_all [jsIsInteger, not_lt, not_or]

/-- Every store write of `updateBook` keeps the stored-book invariant. -/
theorem updateBook_preserves_BookOk (bid : String) (req : BookUpdateReq)
    (now : Nat) (st : Store) (hOk : ∀ x ∈ st.books, BookOk x) :
    ∀ x ∈ (LibraryController.updateBook bid req now st).store.books,
      BookOk x := by
  rcases hf : st.books.find? (fun x => x.id == bid && x.deleted_at == none)
    with _ | b0
  · simp only [LibraryController.updateBook, hf]
    intro x hx
    exact hOk x hx
  · simp only [LibraryController.updateBook, hf]
    split_ifs with h1 h2 h3 h4 h5 h6 <;> try (intro x hx; exact hOk x hx)
    intro x hx
    rcases List.mem_map.mp hx with ⟨y, hy, rfl⟩
    obtain ⟨hp, hs, hd⟩ := hOk y hy
    split
    · refine ⟨?_, ?_, ?_⟩
      · simp only [LibraryController.applyBookUpdate]
        rcases hpr : req.price with _ | j
        · simpa [hpr] using hp
        · rcases j with _ | qq
          · exact absurd (by simp [optNaN, hpr]) h2
          · simp only [hpr]
            have : ¬qq < 0 := by simpa [optNegNum, hpr] using h3
            simpa using not_lt.mp this
      · simp only [LibraryController.applyBookUpdate]
        rcases hsq : req.stock_quantity with _ | j
        · simpa [hsq] using hs
        · rcases j with _ | qq
          · exact absurd (by simp [optNaN, hsq]) h4
          · simp only [hsq]
            have hng := h5
            simp only [optBadStock, hsq] at hng
            simp only [Bool.or_eq_true, not_or] at hng
            simpa using not_lt.mp (by simpa using hng.1)
      · simp only [LibraryController.applyBookUpdate]
        rcases hsq : req.stock_quantity with _ | j
        · simpa [hsq] using hd
        · rcases j with _ | qq
          · exact absurd (by simp [optNaN, hsq]) h4
          · simp only [hsq]
            have hng := h5
            simp only [optBadStock, hsq] at hng
            simp only [Bool.or_eq_true, not_or] at hng
            simpa [jsIsInteger] using hng.2
    · exact ⟨hp, hs, hd⟩

/-- C9: both `createBook` and `updateBook` reject a negative or
non-integral `stock_quantity` and a negative `price` with 400 and no
write, and consequently every book write preserves nonnegative price,
nonnegative stock and integral stock across the store. -/
theorem C9_price_stock_validation_and_invariant
    (st : Store) (now : Nat) (newId : String) (thisYear : ℚ)
    (req : BookCreateReq) (requ : BookUpdateReq) (bid : String)
    (b : Book) (hb : b ∈ st.books) (hbid : b.id = bid)
    (hbact : b.deleted_at = none)
    (buniq : ∀ x ∈ st.books, x.id = bid → x.deleted_at = none → x = b) :
    (∀ q, req.stock_quantity = some (JsNum.num q) → q < 0 ∨ q.den ≠ 1 →
      (LibraryController.createBook req thisYear now newId st).status = 400 ∧
      (LibraryController.createBook req thisYear now newId st).store = st) ∧
    (∀ q, req.price = some (JsNum.num q) → q < 0 →
      (LibraryController.createBook req thisYear now newId st).status = 400 ∧
      (LibraryController.createBook req thisYear now newId st).store = st) ∧
    (∀ q, requ.stock_quantity = some (JsNum.num q) → q < 0 ∨ q.den ≠ 1 →
      (LibraryController.updateBook bid requ now st).status = 400 ∧
      (LibraryController.updateBook bid requ now st).store = st) ∧
    (∀ q, requ.price = some (JsNum.num q) → q < 0 →
      (LibraryController.updateBook bid requ now st).status = 400 ∧
      (LibraryController.updateBook bid requ now st).store = st) ∧
    ((∀ x ∈ st.books, BookOk x) →
      (∀ x ∈ (LibraryController.createBook req thisYear now newId
        st).store.books, BookOk x) ∧
      (∀ x ∈ (LibraryController.updateBook bid requ now st).store.books,
        BookOk x)) := by
  have hbfind : st.books.find?
      (fun x => x.id == bid && x.deleted_at == none) = some b :=
    find?_of_unique hb (by simp [hbid, hbact])
      (fun x hx hpx => by
        have h2 := Bool.and_eq_true _ _ |>.mp hpx
        exact buniq x hx (by simpa using h2.1) (by simpa using h2.2))
  exact ⟨fun q hq hbad =>
      createBook_bad_stock_rejected req thisYear now newId st q hq hbad,
    fun q hq hbad =>
      createBook_neg_price_rejected req thisYear now newId st q hq hbad,
    fun q hq hbad =>
      updateBook_bad_stock_rejected bid requ now st b hbfind q hq hbad,
    fun q hq hbad =>
      updateBook_neg_price_rejected bid requ now st b hbfind q hq hbad,
    fun hOk => ⟨createBook_preserves_BookOk req thisYear now newId st hOk,
      updateBook_preserves_BookOk bid requ now st hOk⟩⟩

/-- Witness for C9: a concrete create and update with stock −1 both
answer 400. -/
theorem C9_price_stock_validation_and_invariant_witness :
    (LibraryController.createBook reqBadStock 2025 10 "nb" stC3).status =
      400 ∧
    (LibraryController.updateBook "b3" requBadStock 10 stC3).status = 400 := by
  have h := C9_price_stock_validation_and_invariant stC3 10 "nb" 2025
    reqBadStock requBadStock "b3" bAct (by simp [stC3]) rfl rfl
    (by intro x hx hxid hxact
        simp only [stC3, List.mem_cons, List.not_mem_nil, or_false] at hx
        subst hx
        rfl)
  exact ⟨(h.1 (-1) rfl (Or.inl (by norm_num))).1,
    (h.2.2.1 (-1) rfl (Or.inl (by norm_num))).1⟩

/-- C10: `createBook` rejects a numeric `publication_year` below 0 or
above `thisYear + 1` with 400 and no write, while `updateBook` accepts
*any* numeric `publication_year` (only non-numeric values are rejected)
and stores it — the create-time range bound is not maintained by
update. -/
theorem C10_year_bound_only_at_create
    (st : Store) (now : Nat) (newId : String) (thisYear : ℚ)
    (req : BookCreateReq) (y : ℚ)
    (hy : req.publication_year = some (JsNum.num y))
    (hrange : y < 0 ∨ y > thisYear + 1)
    (bid : String) (b : Book) (hb : b ∈ st.books) (hbid : b.id = bid)
    (hbact : b.deleted_at = none)
    (buniq : ∀ x ∈ st.books, x.id = bid → x.deleted_at = none → x = b)
    (z : ℚ) :
    (LibraryController.createBook req thisYear now newId st).status = 400 ∧
    (LibraryController.createBook req thisYear now newId st).store = st ∧
    (LibraryController.updateBook bid
      ⟨none, none, none, none, some (JsNum.num z), none, none, none⟩
      now st).status = 200 ∧
    (LibraryController.updateBook bid
      ⟨none, none, none, none, some (JsNum.num z), none, none, none⟩
      now st).data =
      some (LibraryController.applyBookUpdate b
        ⟨none, none, none, none, some (JsNum.num z), none, none, none⟩ now) ∧
    (LibraryController.applyBookUpdate b
      ⟨none, none, none, none, some (JsNum.num z), none, none, none⟩
      now).publication_year = z := by
  have hbfind : st.books.find?
      (fun x => x.id == bid && x.deleted_at == none) = some b :=
    find?_of_unique hb (by simp [hbid, hbact])
      (fun x hx hpx => by
        have h2 := Bool.and_eq_true _ _ |>.mp hpx
        exact buniq x hx (by simpa using h2.1) (by simpa using h2.2))
  have hcreate :
      (LibraryController.createBook req thisYear now newId st).status = 400 ∧
      (LibraryController.createBook req thisYear now newId st).store = st := by
    rcases req with ⟨tO, wO, pubO, dO, pyO, prO, sqO, gidO⟩
    simp only at hy
    subst hy
    simp only [LibraryController.createBook]
    repeat' split
    all_goals try simp_all [jsIsInteger]
    all_goals rcases hrange with hr | hr
    all_goals linarith
  refine ⟨hcreate.1, hcreate.2, ?_, ?_, ?_⟩
  · simp [LibraryController.updateBook, hbfind, optNaN, optNegNum,
      optBadStock]
  · simp [LibraryController.updateBook, hbfind, optNaN, optNegNum,
      optBadStock]
  · simp [LibraryController.applyBookUpdate]

/-- Witness for C10: year −100 is rejected at create, year 99999 is
accepted and stored by update. -/
theorem C10_year_bound_only_at_create_witness :
    (LibraryController.createBook reqBadYear 2025 10 "nb" stC3).status =
      400 ∧
    (LibraryController.updateBook "b3"
      ⟨none, none, none, none, some (JsNum.num 99999), none, none, none⟩
      10 stC3).status = 200 ∧
    (LibraryController.applyBookUpdate bAct
      ⟨none, none, none, none, some (JsNum.num 99999), none, none, none⟩
      10).publication_year = 99999 := by
  have h := C10_year_bound_only_at_create stC3 10 "nb" 2025 reqBadYear
    (-100) rfl (Or.inl (by norm_num)) "b3" bAct (by simp [stC3]) rfl rfl
    (by intro x hx hxid hxact
        simp only [stC3, List.mem_cons, List.not_mem_nil, or_false] at hx
        subst hx
        rfl)
    99999
  exact ⟨h.1, h.2.2.1, h.2.2.2.2⟩
